import Mathlib

/-!
Verification development for the citecheck brief-parsing core.

Python strings are modelled as `List Char`; spans and indices are `Nat`.
Python `None` becomes `Option.none`; Python truthiness of an optional
string (`if s:`) is `pyTruthy`, which is false for `None` and for the
empty string.  Fields named `end` in the source are called `stop` here
because `end` is a Lean keyword.
-/

set_option maxRecDepth 100000
set_option maxHeartbeats 4000000

namespace CiteCheck

/-- Python `str` whitespace characters (`' \t\n\r\x0b\x0c'`). -/
def isPySpace (c : Char) : Bool :=
  c = ' ' || c = '\t' || c = '\n' || c = '\x0d' || c = '\x0b' || c = '\x0c'

/-- Python `str.lstrip()` (no argument: strip whitespace on the left). -/
def pyLStrip (s : List Char) : List Char := s.dropWhile isPySpace

/-- Python `str.rstrip()` (no argument: strip whitespace on the right). -/
def pyRStrip (s : List Char) : List Char := (s.reverse.dropWhile isPySpace).reverse

/-- Python `str.strip()` (no argument). -/
def pyStrip (s : List Char) : List Char := pyRStrip (pyLStrip s)

/-- Python `str.lstrip(chars)`: strip any of the given characters on the left. -/
def pyLStripSet (cs : List Char) (s : List Char) : List Char :=
  s.dropWhile (fun c => cs.contains c)

/-- Python `str.rstrip(chars)`. -/
def pyRStripSet (cs : List Char) (s : List Char) : List Char :=
  (s.reverse.dropWhile (fun c => cs.contains c)).reverse

/-- Python `str.strip(chars)`. -/
def pyStripSet (cs : List Char) (s : List Char) : List Char :=
  pyRStripSet cs (pyLStripSet cs s)

/-- Python slicing `s[a:b]` (indices clamp to the string's bounds). -/
def pySlice (s : List Char) (a b : Nat) : List Char := (s.take b).drop a

/-- Case folding of a string, character by character (ASCII, as in the inputs). -/
def pyLower (s : List Char) : List Char := s.map Char.toLower

/-- Python word character for `\b` in the `re` module: alphanumeric or underscore. -/
def isWordChar (c : Char) : Bool := c.isAlphanum || c = '_'

/-- Truthiness of an optional string: `None` and `""` are falsy. -/
def pyTruthy : Option (List Char) → Bool
  | none => false
  | some s => !s.isEmpty

/-- Python `a or b` on optional strings (used as `pin_cite or page`). -/
def pyOrStr (a b : Option (List Char)) : Option (List Char) :=
  if pyTruthy a then a else b

/-- Python `str.split()` with no argument: split on runs of whitespace,
dropping empty pieces. -/
def pySplit (s : List Char) : List (List Char) :=
  let p := s.foldr
    (fun c (acc : List (List Char) × List Char) =>
      if isPySpace c then
        (if acc.2.isEmpty then acc else (acc.2 :: acc.1, []))
      else (acc.1, c :: acc.2))
    ([], [])
  if p.2.isEmpty then p.1 else p.2 :: p.1

/-- `' '.join(words)`. -/
def joinSpace : List (List Char) → List Char
  | [] => []
  | [w] => w
  | w :: ws => w ++ ' ' :: joinSpace ws

/-- Leading run of whitespace characters. -/
def wsRunLen (s : List Char) : Nat := (s.takeWhile isPySpace).length

/-- Case-insensitive literal match of `pat` at the head of `s` (character by
character, i.e. `s.lower().startswith(pat.lower())`). -/
def ciStarts : (pat s : List Char) → Bool
  | [], _ => true
  | _ :: _, [] => false
  | p :: ps, c :: cs => p.toLower = c.toLower && ciStarts ps cs

/-- Python `s.endswith(t)`. -/
def pyEndsWith (s t : List Char) : Bool := t.isSuffixOf s

/-- Python `needle in hay` on strings: substring containment. -/
def hasSubstring (needle : List Char) : (hay : List Char) → Bool
  | [] => needle.isEmpty
  | c :: rest => needle.isPrefixOf (c :: rest) || hasSubstring needle rest

end CiteCheck

namespace ParseBrief
open CiteCheck

/-- `LEGAL_ABBREVS` of `parse_brief.py` (a lowercase set; membership only). -/
def LEGAL_ABBREVS : List String :=
  ["v.", "vs.", "inc.", "ltd.", "corp.", "co.", "no.", "nos.",
   "app.", "crim.", "civ.", "ct.", "dist.", "supp.", "rev.",
   "stat.", "ann.", "gen.", "ass.", "ch.", "cl.", "div.",
   "ed.", "ex.", "fed.", "gov.", "jr.", "sr.", "mr.", "mrs.",
   "ms.", "dr.", "prof.", "rep.", "sen.", "st.", "tex.", "cal.",
   "n.y.", "fla.", "u.s.", "s.w.", "n.w.", "s.e.", "n.e.",
   "so.", "f.", "l.", "r.", "s.", "w.", "p.", "proc.", "evid.",
   "art.", "n.", "e.g.", "cf.", "i.e.", "et.", "al.",
   "cir.", "pet.", "op.", "cert.", "reh.", "aff.", "mem.",
   "s.w.2d", "s.w.3d", "n.w.2d", "n.e.2d", "s.e.2d", "so.2d",
   "so.3d", "f.2d", "f.3d", "f.4th", "l.ed.", "l.ed.2d", "s.ct."]

/-- `BriefParser._get_word_ending_at`, phrased over the reversed prefix before
the character at the position: the word is the maximal run of
alphanumeric/`.`/`-` characters ending just before the position, plus the
character at the position itself. -/
def wordEndingAt (revBefore : List Char) (c : Char) : List Char :=
  (revBefore.takeWhile (fun ch => ch.isAlphanum || ch = '.' || ch = '-')).reverse ++ [c]

/-- Characters that may open a new sentence after terminal punctuation in
`BriefParser.segment_sentences` (`rest[0] in '"“”‘’\''`). -/
def sentenceQuoteChars : List Char := ['"', '“', '”', '‘', '’', '\'']

/-- Abbreviation decision of `BriefParser.segment_sentences` at a terminal
punctuation character: `word` is the word ending at the mark and `restL`
the left-stripped remainder of the text. -/
def segIsAbbrev (word restL : List Char) : Bool :=
  let base := LEGAL_ABBREVS.contains (String.mk (pyLower word))
  if !base && word.length = 2 then
    match restL with
    | r0 :: r1 :: _ =>
      if r0.isAlpha && r1 = '.' then
        (LEGAL_ABBREVS.contains (String.mk (pyLower (word ++ [r0, '.'])))) ||
        ((['U', 'N', 'S', 'E', 'W'].contains (word.headD ' ').toUpper) &&
         (['S', 'Y', 'E', 'W', 'T', 'C'].contains r0.toUpper))
      else base
    | _ => base
  else base

/-- Loop of `BriefParser.segment_sentences`: `revBefore` is the reversed text
already consumed, `current` the reversed pending sentence, `rest` the text
still to scan, `acc` the finished sentences in order. -/
def segLoop : (revBefore current rest : List Char) → (acc : List (List Char)) → List (List Char)
  | _, current, [], acc =>
    let remaining := pyStrip current.reverse
    if remaining.isEmpty then acc else acc ++ [remaining]
  | revBefore, current, c :: rest, acc =>
    let current' := c :: current
    if c = '.' || c = '!' || c = '?' then
      let restL := pyLStrip rest
      match restL with
      | [] => segLoop (c :: revBefore) [] rest (acc ++ [pyStrip current'.reverse])
      | r0 :: _ =>
        if r0.isUpper || sentenceQuoteChars.contains r0 then
          let word := wordEndingAt revBefore c
          if segIsAbbrev word restL then
            segLoop (c :: revBefore) current' rest acc
          else
            segLoop (c :: revBefore) [] rest (acc ++ [pyStrip current'.reverse])
        else
          segLoop (c :: revBefore) current' rest acc
    else
      segLoop (c :: revBefore) current' rest acc

/-- `BriefParser.segment_sentences`. -/
def segment_sentences (text : List Char) : List (List Char) :=
  segLoop [] [] text []

end ParseBrief

namespace CitationAnalyzer
open CiteCheck

/-- `CitationAnalyzer.SIGNALS`, in source order (matching is case-insensitive,
so the lowercase originals are kept verbatim). -/
def SIGNALS : List String :=
  ["see", "see also", "see generally", "cf.", "compare", "contra",
   "but see", "but cf.", "see, e.g.,", "e.g.,", "accord"]

/-- `CitationAnalyzer.LEGAL_ABBREVS`, lowercased once here because the source
compares `potential.lower() == abbrev.lower()`. -/
def LEGAL_ABBREVS : List String :=
  ["v.", "vs.", "inc.", "ltd.", "corp.", "co.", "no.", "nos.",
   "app.", "crim.", "civ.", "ct.", "dist.", "supp.", "rev.",
   "stat.", "ann.", "gen.", "ass.", "ch.", "cl.", "div.",
   "ed.", "ex.", "fed.", "gov.", "int.", "jr.", "sr.", "mr.",
   "mrs.", "ms.", "dr.", "prof.", "rep.", "sen.", "st.",
   "tex.", "cal.", "n.y.", "fla.", "u.s.", "s.w.", "n.w.",
   "s.e.", "n.e.", "so.", "p.", "f.", "l.", "r.", "s.", "w."]

/-- Explanatory verbs of the analyzer's `parenthetical_pattern`. -/
def PAREN_VERBS : List String :=
  ["holding", "stating", "finding", "noting", "explaining", "observing",
   "concluding", "reasoning", "emphasizing", "recognizing", "determining",
   "clarifying", "reaffirming", "affirming", "reversing"]

/-- Keywords of the leading citation-annotation pattern
`^\([^)]*(?:added|omitted|...)[^)]*\)\s*\.?\s*`: since `[^)]*` cannot cross a
closing parenthesis, the pattern matches exactly when the text inside the
first parenthesis pair contains one of these substrings (`marks?` and
`citations?` reduce to their stems for a containment test). -/
def ANNOTATION_WORDS : List String :=
  ["added", "omitted", "altered", "supplied", "cleaned up",
   "quotation mark", "citation", "internal", "emphasis", "footnote"]

/-- Delimiters of the analyzer's `inline_quote_pattern` (straight and curly
double quotes; the open and close classes are the same set). -/
def quoteDelims : List Char := ['"', '“', '”']

/-- Quotation record produced by `CitationAnalyzer._find_quotations`
(`stop` is the source's `end`). -/
structure QuoteInfo where
  text : List Char
  start : Nat
  stop : Nat
deriving DecidableEq, Repr

/-- `CitationAnalyzer._find_quotations`: non-overlapping leftmost matches of
`["“”]([^"“”]+)["“”]`, with `offset` the absolute index of the current
suffix `s`.  The recursion is structural on `fuel`; every step consumes at
least one character of `s`, so the initial fuel `s.length` never runs out. -/
def fqGo : (fuel : Nat) → (s : List Char) → (offset : Nat) → List QuoteInfo
  | 0, _, _ => []
  | _, [], _ => []
  | fuel + 1, c :: rest, off =>
    if quoteDelims.contains c then
      let run := rest.takeWhile (fun x => !quoteDelims.contains x)
      if 1 ≤ run.length && run.length < rest.length then
        ⟨run, off, off + run.length + 2⟩ ::
          fqGo fuel (rest.drop (run.length + 1)) (off + run.length + 2)
      else fqGo fuel rest (off + 1)
    else fqGo fuel rest (off + 1)

/-- `CitationAnalyzer._find_quotations`. -/
def find_quotations (t : List Char) : List QuoteInfo := fqGo t.length t 0

/-- Position `pos + k` where `k` is the run of whitespace starting at `pos`
(the `while ... isspace(): best_pos += 1` loop of `_find_sentence_start`). -/
def advanceWs (st : List Char) (pos : Nat) : Nat := pos + wsRunLen (st.drop pos)

/-- Abbreviation test of `CitationAnalyzer._find_sentence_start` at index `i`
of `st`: some abbreviation, placed to end at `i`, matches case-insensitively. -/
def fssIsAbbrev (st : List Char) (i : Nat) : Bool :=
  LEGAL_ABBREVS.any fun ab =>
    decide (ab.length ≤ i + 1) && decide (pyLower (pySlice st (i + 1 - ab.length) (i + 1)) = ab.data)

/-- Backward loop of `CitationAnalyzer._find_sentence_start` over
`st = text[:end_pos]`, currently at index `i` with `found` boundaries seen;
returns `best_pos`. -/
def fssLoop (st : List Char) : (found : Nat) → (i : Nat) → Nat
  | found, i =>
    let c := st.getD i ' '
    let isBoundary :=
      if c = '.' || c = '!' || c = '?' then
        let afterPunct := pyLStrip (st.drop (i + 1))
        if afterPunct.isEmpty || (afterPunct.headD ' ').isUpper then
          !fssIsAbbrev st i
        else false
      else false
    if isBoundary then
      if found + 1 = 2 then advanceWs st (i + 1)
      else
        match i with
        | 0 => 0
        | j + 1 => fssLoop st (found + 1) j
    else
      match i with
      | 0 => 0
      | j + 1 => fssLoop st found j

/-- `CitationAnalyzer._find_sentence_start`. -/
def find_sentence_start (text : List Char) (endPos : Nat) : Nat :=
  let st := text.take endPos
  match st.length with
  | 0 => 0
  | n + 1 => fssLoop st 0 n

/-- Match of the analyzer's `signal_pattern` `\b(sig)\s*$` at position `i` of
`t`: a word boundary precedes `i`, one of `SIGNALS` (tried in source order)
matches case-insensitively, and only whitespace follows.  Returns the matched
signal (already lowercase). -/
def signalAt (t : List Char) (i : Nat) : Option (List Char) :=
  if i = 0 || !isWordChar (t.getD (i - 1) ' ') then
    SIGNALS.findSome? fun sig =>
      if ciStarts sig.data (t.drop i) && (t.drop (i + sig.length)).all isPySpace then
        some sig.data
      else none
  else none

/-- Leftmost match of the `signal_pattern` in `t`, with its start position. -/
def signalSearch (t : List Char) : Option (Nat × List Char) :=
  (List.range t.length).findSome? fun i => (signalAt t i).map (fun s => (i, s))

/-- `CitationAnalyzer._extract_signal`. -/
def extract_signal (t : List Char) : Option (List Char) :=
  (signalSearch t).map (·.2)

/-- `self.signal_pattern.sub('', preceding_text).strip()`: the unique possible
match runs from its start position to the end of the string, so substitution
keeps the prefix before the match. -/
def signalStrip (t : List Char) : List Char :=
  match signalSearch t with
  | some (i, _) => pyStrip (t.take i)
  | none => pyStrip t

/-- The leading `annotation_pattern` substitution of
`extract_citations_with_context` (see `ANNOTATION_WORDS` for the reduction of
the regular expression to a containment test), including the trailing
`\s*\.?\s*` consumption. -/
def annotationSub (t : List Char) : List Char :=
  match t with
  | '(' :: rest =>
    let content := rest.takeWhile (· ≠ ')')
    if content.length < rest.length then
      if ANNOTATION_WORDS.any (fun w => hasSubstring w.data (pyLower content)) then
        let a0 := rest.drop (content.length + 1)
        let a1 := a0.drop (wsRunLen a0)
        let a2 := match a1 with
          | '.' :: a => a
          | _ => a1
        a2.drop (wsRunLen a2)
      else t
    else t
  | _ => t

/-- Match of the analyzer's `parenthetical_pattern`
`\((?:verb)\s+that\s+([^)]+)\)` at position `i` of the window `w`.  The
second `\s+` is greedy but backtracks so that the group `[^)]+` keeps at
least one character; `r` below is the full run up to the first `)`.
Returns (group 0, group 1, match end). -/
def parenMatchAt (w : List Char) (i : Nat) : Option (List Char × List Char × Nat) :=
  match w.drop i with
  | '(' :: s1 =>
    match PAREN_VERBS.findSome? (fun v => if ciStarts v.data s1 then some v.data.length else none) with
    | none => none
    | some vlen =>
      let s2 := s1.drop vlen
      let w1 := wsRunLen s2
      if w1 = 0 then none
      else
        let s3 := s2.drop w1
        if ciStarts "that".data s3 then
          let s4 := s3.drop 4
          let r := s4.takeWhile (· ≠ ')')
          if r.length < s4.length && 1 ≤ wsRunLen r && 2 ≤ r.length then
            let a := min (wsRunLen r) (r.length - 1)
            let stop := i + 1 + vlen + w1 + 4 + r.length + 1
            some (pySlice w i stop, r.drop a, stop)
          else none
        else none
  | _ => none

/-- Parenthetical record of `CitationAnalyzer._find_parenthetical_after`
(`stop` is the source's `end`). -/
structure ParenInfo where
  full_text : List Char
  content : List Char
  has_quotations : Bool
  quotations : List QuoteInfo
  start : Nat
  stop : Nat
deriving DecidableEq, Repr

/-- `CitationAnalyzer._find_parenthetical_after` (default `lookahead = 200`):
leftmost `parenthetical_pattern` match anywhere in the 200-character window
after `position`. -/
def find_parenthetical_after (text : List Char) (position : Nat) : Option ParenInfo :=
  let followingText := pySlice text position (min text.length (position + 200))
  match (List.range followingText.length).findSome?
      (fun i => (parenMatchAt followingText i).map (fun m => (i, m))) with
  | none => none
  | some (i, g0, g1, stop) =>
    let parentheticalContent := pyStrip g1
    let qs := find_quotations parentheticalContent
    some { full_text := g0, content := parentheticalContent,
           has_quotations := !qs.isEmpty, quotations := qs,
           start := position + i, stop := position + stop }

/-- Citation token kinds (`eyecite` classes), a closed union. -/
inductive CiteKind
  | fullCase | shortCase | idCite | supraCite | unknown
deriving DecidableEq, Repr

/-- A recognizer token: `span()` plus the optional full-span and
antecedent-guess metadata the analyzer consults. -/
structure Tok where
  kind : CiteKind
  spanStart : Nat
  spanEnd : Nat
  fullSpanStart : Option Nat := none
  fullSpanEnd : Option Nat := none
  antecedentGuess : Option (List Char) := none
deriving DecidableEq, Repr

/-- Match of `\b(antecedent)\s*,\s*$` at position `i` of `preceding`
(case-insensitive; the antecedent is `re.escape`d, hence literal). -/
def antMatchAt (preceding ant : List Char) (i : Nat) : Bool :=
  let wAt : Nat → Bool := fun j =>
    match preceding.get? j with
    | some c => isWordChar c
    | none => false
  let prevWord := if i = 0 then false else wAt (i - 1)
  (prevWord != wAt i) &&
    (ciStarts ant (preceding.drop i) &&
      (let s := preceding.drop (i + ant.length)
       let s1 := s.drop (wsRunLen s)
       match s1 with
       | ',' :: s2 => (s2.drop (wsRunLen s2)).isEmpty
       | _ => false))

/-- `CitationAnalyzer._get_full_citation_span`. -/
def get_full_citation_span (cite : Tok) (text : List Char) : Nat × Nat :=
  match cite.kind with
  | .fullCase =>
    match cite.fullSpanStart with
    | some fs => (fs, cite.fullSpanEnd.getD cite.spanEnd)
    | none => (cite.spanStart, cite.spanEnd)
  | .shortCase =>
    match cite.fullSpanStart with
    | some fs => (fs, cite.fullSpanEnd.getD cite.spanEnd)
    | none =>
      match cite.antecedentGuess with
      | some ant =>
        if !ant.isEmpty then
          let lookback := min cite.spanStart 100
          let preceding := pySlice text (cite.spanStart - lookback) cite.spanStart
          match (List.range preceding.length).findSome?
              (fun i => if antMatchAt preceding ant i then some i else none) with
          | some i => (cite.spanStart - lookback + i, cite.spanEnd)
          | none => (cite.spanStart, cite.spanEnd)
        else (cite.spanStart, cite.spanEnd)
      | none => (cite.spanStart, cite.spanEnd)
  | _ => (cite.spanStart, cite.spanEnd)

/-- The `citation` sub-dictionary of one result of
`extract_citations_with_context` (`stop` is the source's `end`). -/
structure CitationOut where
  text : List Char
  type : String
  start : Nat
  stop : Nat
  signal : Option (List Char)
  parenthetical : Option ParenInfo
  needs_review : Bool
  refers_to : Option (List Char) := none
deriving DecidableEq, Repr

/-- The `block_quote` record attached to an item by
`BriefProcessor._link_block_quotes_to_citations`. -/
structure LinkedBQ where
  text : List Char
  intro_text : List Char
  start_page : Nat
  end_page : Nat
deriving DecidableEq, Repr

/-- One result of `extract_citations_with_context` (the optional
`block_quote` key is filled later by the block-quote linker; absent = `none`). -/
structure Item where
  preceding_text : List Char
  citation : CitationOut
  has_quotation : Bool
  quotations : List QuoteInfo
  content_type : String
  is_string_cite : Bool
  string_cite_group : Nat
  block_quote : Option LinkedBQ := none
deriving DecidableEq, Repr

/-- Loop state of `extract_citations_with_context`. -/
structure AState where
  last_end : Nat := 0
  last_full_citation : Option (List Char) := none
  last_proposition : Option (List Char) := none
  string_cite_group : Nat := 0
deriving DecidableEq, Repr

/-- String name of a token kind, as stored in the result dictionary. -/
def kindName : CiteKind → String
  | .fullCase => "full_case"
  | .shortCase => "short_case"
  | .idCite => "id"
  | .supraCite => "supra"
  | .unknown => "unknown"

/-- One iteration of the loop of `extract_citations_with_context`.  The
string-cite branch (`preceding_text`, `last_proposition`, group counter) is
written as three parallel conditionals on the same test, equivalent to the
source's single `if`/`else`. -/
def processCite (text : List Char) (st : AState) (cite : Tok) : Item × AState :=
  let fullSpan := get_full_citation_span cite text
  let startPos := fullSpan.1
  let endPos := fullSpan.2
  let citationText := pySlice text startPos endPos
  let sentenceStart := find_sentence_start text startPos
  let actualStart := max st.last_end sentenceStart
  let p0 := pyStrip (pySlice text actualStart startPos)
  let p1 := pyLStripSet ['.', ',', ';', ':', '!', '?', ' ', '\t', '\n'] p0
  let p2 := annotationSub p1
  let signal := extract_signal p2
  let p3 := if signal.isSome then signalStrip p2 else p2
  let strippedPreceding := pyStripSet [';', ',', '.', ' ', '\t', '\n'] p3
  let isStringCite :=
    strippedPreceding.isEmpty ||
      ["and", "or", "but"].any (fun w => strippedPreceding = w.data)
  let p4 :=
    if isStringCite then
      match st.last_proposition with
      | some lp => if lp.isEmpty then p3 else lp
      | none => p3
    else p3
  let lastProp := if isStringCite then st.last_proposition else some p3
  let group := if isStringCite then st.string_cite_group else st.string_cite_group + 1
  let parenthetical := find_parenthetical_after text endPos
  let citeType := kindName cite.kind
  let lastFull :=
    if cite.kind = .fullCase then some citationText else st.last_full_citation
  let quotations := find_quotations p4
  let needsReview := signal.isSome && parenthetical.isNone
  let refersTo :=
    if citeType = "id" && pyTruthy lastFull then lastFull else none
  let item : Item :=
    { preceding_text := p4
      citation :=
        { text := citationText, type := citeType, start := startPos, stop := endPos,
          signal := signal, parenthetical := parenthetical,
          needs_review := needsReview, refers_to := refersTo }
      has_quotation := !quotations.isEmpty
      quotations := quotations
      content_type := if !quotations.isEmpty then "quotation" else "statement"
      is_string_cite := isStringCite
      string_cite_group := group }
  let lastEnd :=
    match parenthetical with
    | some p => p.stop
    | none => endPos
  (item, { last_end := lastEnd, last_full_citation := lastFull,
           last_proposition := lastProp, string_cite_group := group })

/-- One fold step of `extract_citations_with_context`: append the result,
carry the state. -/
def ecwcStep (text : List Char) (acc : List Item × AState) (tok : Tok) :
    List Item × AState :=
  (acc.1 ++ [(processCite text acc.2 tok).1], (processCite text acc.2 tok).2)

/-- `CitationAnalyzer.extract_citations_with_context`, with the external
recognizer's tokens (the result of `get_citations`) supplied as input. -/
def extract_citations_with_context (text : List Char) (toks : List Tok) : List Item :=
  (toks.foldl (ecwcStep text) (([], {}) : List Item × AState)).1

end CitationAnalyzer

namespace BriefProcessor
open CiteCheck CitationAnalyzer

/-- A detected block quote, as produced by
`PDFExtractor.extract_section_with_blockquotes`. -/
structure BlockQuote where
  text : List Char
  start_page : Nat
  end_page : Nat
deriving DecidableEq, Repr

/-- Characters that can end introductory text for block quotes
(`intro_endings` in `_link_block_quotes_to_citations`). -/
def intro_endings : List (List Char) :=
  [[':'], ['—'], [','], [';'], ['…'], ['.', '.', '.']]

/-- Python `hay.find(needle)`. -/
def pyFind (hay needle : List Char) : Int :=
  match (List.range (hay.length + 1)).find? (fun i => needle.isPrefixOf (hay.drop i)) with
  | some i => (i : Int)
  | none => -1

/-- Body of the inner loop of `_link_block_quotes_to_citations` for one block
quote: the first ten whitespace-normalized words of the quote must occur in
the citation's normalized preceding text. -/
def linkOne (precedingNormalized : List Char) (bq : BlockQuote) : Option LinkedBQ :=
  let bqIdentifier := joinSpace ((pySplit bq.text).take 10)
  if hasSubstring bqIdentifier precedingNormalized then
    let bqStartIdx := (pyFind precedingNormalized bqIdentifier).toNat
    let introText :=
      if 0 < bqStartIdx then
        let potentialIntro := pyStrip (precedingNormalized.take bqStartIdx)
        if !potentialIntro.isEmpty &&
            intro_endings.any (fun e => pyEndsWith (pyRStrip potentialIntro) e) then
          potentialIntro
        else []
      else []
    some { text := bq.text, intro_text := introText,
           start_page := bq.start_page, end_page := bq.end_page }
  else none

/-- The per-item body of `_link_block_quotes_to_citations`: the first matching
block quote (in list order) is linked; on link, inline quotations are cleared
and the content type becomes `block_quotation`. -/
def link_item (blockQuotes : List BlockQuote) (item : Item) : Item :=
  let precedingNormalized := joinSpace (pySplit item.preceding_text)
  match blockQuotes.findSome? (linkOne precedingNormalized) with
  | some lb =>
    { item with block_quote := some lb, quotations := [],
                has_quotation := false, content_type := "block_quotation" }
  | none => item

/-- `BriefProcessor._link_block_quotes_to_citations` (the in-place update of
`items`, functionally). -/
def link_block_quotes_to_citations (items : List Item) (blockQuotes : List BlockQuote) :
    List Item :=
  items.map (link_item blockQuotes)

/-- The section dictionary returned by
`PDFExtractor.extract_section_with_blockquotes`. -/
structure SectionData where
  text : List Char
  start_page : Nat
  end_page : Nat
  block_quotes : List BlockQuote
  body_margin : Option Int := none
  para_indent : Option Int := none
deriving DecidableEq, Repr

/-- Failure of a per-document run: the required Argument section heading was
not found (`raise ValueError("Could not find Argument section in the brief")`,
the sole failure path of `process_brief`). -/
inductive ProcessError
  | sectionNotFound
deriving DecidableEq, Repr

/-- The `metadata` sub-dictionary of `process_brief`'s result. -/
structure BriefMetadata where
  start_page : Nat
  end_page : Nat
  total_citations : Nat
  total_statements : Nat
  total_inline_quotations : Nat
  total_block_quotations : Nat
  body_margin : Option Int
  para_indent : Option Int
deriving DecidableEq, Repr

/-- The result dictionary of `process_brief`. -/
structure BriefResult where
  metadata : BriefMetadata
  items : List Item
  block_quotes : List BlockQuote
deriving DecidableEq, Repr

/-- `BriefProcessor.process_brief`.  The two extractor calls (headings
`"Argument"/"Prayer"`, then `"ARGUMENT"/"PRAYER"`) and the external
`clean_text`/`get_citations` collaborators are inputs; raising `ValueError`
is modelled as `Except.error .sectionNotFound`, which carries no output. -/
def process_brief (cleanText : List Char → List Char)
    (getCitations : List Char → List Tok)
    (sectionArgumentPrayer sectionUpperArgumentPrayer : Option SectionData) :
    Except ProcessError BriefResult :=
  let argumentSection :=
    match sectionArgumentPrayer with
    | some s => some s
    | none => sectionUpperArgumentPrayer
  match argumentSection with
  | none => .error .sectionNotFound
  | some sec =>
    let rawText := sec.text
    let normalizedText := cleanText rawText
    let items0 := extract_citations_with_context normalizedText (getCitations normalizedText)
    let items := link_block_quotes_to_citations items0 sec.block_quotes
    let totalStatements := (items.filter (fun it => it.content_type = "statement")).length
    let totalInlineQuotations := (items.filter (fun it => it.content_type = "quotation")).length
    let totalBlockQuotations := (items.filter (fun it => it.content_type = "block_quotation")).length
    .ok
      { metadata :=
          { start_page := sec.start_page, end_page := sec.end_page,
            total_citations := items.length,
            total_statements := totalStatements,
            total_inline_quotations := totalInlineQuotations,
            total_block_quotations := totalBlockQuotations,
            body_margin := sec.body_margin, para_indent := sec.para_indent }
        items := items
        block_quotes := sec.block_quotes }

end BriefProcessor

namespace ParseBrief
open CiteCheck

/-- A CourtListener record, reduced to the `citation` field that
`propagate_cl_records.get_start_page` reads (a list of strings such as
`"184 S.W.3d 242"`). -/
structure CLRecord where
  citation : List (List Char)
deriving DecidableEq, Repr

/-- The `Citation` dataclass of `parse_brief.py` (dictionary view used by the
post-processing passes). -/
structure PBCitation where
  text : List Char := []
  case_name : Option (List Char) := none
  volume : Option (List Char) := none
  reporter : Option (List Char) := none
  page : Option (List Char) := none
  pin_cite : Option (List Char) := none
  cite_type : String := "unknown"
  span : Nat × Nat := (0, 0)
  signal : Option (List Char) := none
  parenthetical : Option (List Char) := none
  refers_to : Option (List Char) := none
  cl_record : Option CLRecord := none
deriving DecidableEq, Repr

/-- Value of a digit string, most significant digit first. -/
def digitsToNat (ds : List Char) : Nat :=
  ds.foldl (fun n c => n * 10 + (c.toNat - '0'.toNat)) 0

/-- Python `int(s)` on a string: optional sign around a nonempty digit run,
surrounding whitespace ignored; anything else raises `ValueError` (`none`). -/
def pyInt? (s : List Char) : Option Int :=
  let t := pyStrip s
  match t with
  | '-' :: ds =>
    if !ds.isEmpty && ds.all Char.isDigit then some (-(digitsToNat ds : Int)) else none
  | '+' :: ds =>
    if !ds.isEmpty && ds.all Char.isDigit then some (digitsToNat ds : Int) else none
  | ds =>
    if !ds.isEmpty && ds.all Char.isDigit then some (digitsToNat ds : Int) else none

/-- `propagate_cl_records.get_start_page`: the first citation string with at
least three whitespace-separated parts whose last part parses as an integer. -/
def get_start_page (rec : CLRecord) : Option Int :=
  rec.citation.findSome? fun c =>
    let parts := pySplit c
    if 3 ≤ parts.length then pyInt? (parts.getLastD []) else none

/-- First run of digits in a string (`re.search(r'(\d+)', ...)`). -/
def firstDigitRun (s : List Char) : Option Nat :=
  let ds := (s.dropWhile (fun c => !c.isDigit)).takeWhile Char.isDigit
  if ds.isEmpty then none else some (digitsToNat ds)

/-- `propagate_cl_records.is_valid_pin_cite`. -/
def is_valid_pin_cite (pinCite : List Char) (startPage : Int) : Bool :=
  if pinCite.isEmpty then true
  else
    match firstDigitRun pinCite with
    | none => true
    | some pinPage =>
      if (pinPage : Int) < startPage then false
      else if startPage + 500 < (pinPage : Int) then false
      else true

/-- Python `if n:` truthiness of an optional integer (`0` and `None` falsy). -/
def pyTruthyInt : Option Int → Bool
  | none => false
  | some n => n ≠ 0

/-- State carried by `propagate_cl_records.process_citations` across the
document (`full_cites_by_key` is a Python dict in insertion order). -/
structure PState where
  full_cites_by_key : List (List Char × PBCitation) := []
  last_cite : Option PBCitation := none
  last_pin_cite : Option (List Char) := none
deriving DecidableEq, Repr

/-- Python `d[k] = v` on an association list (overwrite in place, else append). -/
def dictInsert (k : List Char) (v : PBCitation) (d : List (List Char × PBCitation)) :
    List (List Char × PBCitation) :=
  if d.any (·.1 = k) then d.map (fun p => if p.1 = k then (k, v) else p) else d ++ [(k, v)]

/-- Python `d.get(k)`. -/
def dictGet (k : List Char) (d : List (List Char × PBCitation)) : Option PBCitation :=
  (d.find? (·.1 = k)).map (·.2)

/-- The `"vol|reporter"` key of `process_citations`. -/
def volRepKey (volume reporter : Option (List Char)) : List Char :=
  volume.getD [] ++ '|' :: reporter.getD []

/-- One iteration of the loop in `propagate_cl_records.process_citations`:
returns the (possibly updated, since the source mutates `cite` in place)
citation and the new state. -/
def processOneCite (st : PState) (cite : PBCitation) : PBCitation × PState :=
  let volume := cite.volume
  let reporter := cite.reporter
  let page := cite.page
  let pinCite := cite.pin_cite
  if cite.cite_type = "full_case" then
    let st1 :=
      if pyTruthy volume && pyTruthy reporter then
        { st with full_cites_by_key :=
            dictInsert (volRepKey volume reporter) cite st.full_cites_by_key }
      else st
    if cite.cl_record.isSome then
      (cite, { st1 with last_cite := some cite, last_pin_cite := pyOrStr pinCite page })
    else (cite, st1)
  else if cite.cite_type = "short_case" then
    let cite1 :=
      if pyTruthy volume && pyTruthy reporter then
        match dictGet (volRepKey volume reporter) st.full_cites_by_key with
        | some fullCite =>
          match fullCite.cl_record with
          | some clRecord =>
            let startPage := get_start_page clRecord
            if pyTruthyInt startPage && pyTruthy page then
              match pyInt? (page.getD []) with
              | some p =>
                if startPage.getD 0 ≤ p then
                  { cite with cl_record := some clRecord,
                              case_name := pyOrStr cite.case_name fullCite.case_name }
                else cite
              | none => cite
            else
              { cite with cl_record := some clRecord,
                          case_name := pyOrStr cite.case_name fullCite.case_name }
          | none => cite
        | none => cite
      else cite
    if cite1.cl_record.isSome then
      (cite1, { st with last_cite := some cite1, last_pin_cite := pyOrStr pinCite page })
    else (cite1, st)
  else if cite.cite_type = "id" then
    match st.last_cite with
    | some lastCite =>
      match lastCite.cl_record with
      | some clRecord =>
        let startPage := get_start_page clRecord
        let effectivePin := pyOrStr pinCite st.last_pin_cite
        let cite1 :=
          if pyTruthyInt startPage && pyTruthy effectivePin then
            if is_valid_pin_cite (effectivePin.getD []) (startPage.getD 0) then
              let c := { cite with cl_record := some clRecord,
                                   case_name := pyOrStr cite.case_name lastCite.case_name }
              if !pyTruthy pinCite && pyTruthy effectivePin then
                { c with pin_cite := effectivePin }
              else c
            else cite
          else
            let c := { cite with cl_record := some clRecord,
                                 case_name := pyOrStr cite.case_name lastCite.case_name }
            if !pyTruthy pinCite && pyTruthy effectivePin then
              { c with pin_cite := effectivePin }
            else c
        let lastPin :=
          if pyTruthy pinCite then pinCite
          else if pyTruthy effectivePin then effectivePin
          else st.last_pin_cite
        (cite1, { st with last_pin_cite := lastPin })
      | none => (cite, st)
    | none => (cite, st)
  else (cite, st)

/-- `propagate_cl_records.process_citations` over one citation list. -/
def process_citations (st : PState) (citations : List PBCitation) :
    List PBCitation × PState :=
  citations.foldl
    (fun acc c =>
      let (c', st') := processOneCite acc.2 c
      (acc.1 ++ [c'], st'))
    ([], st)

/-- A sentence of the parsed argument structure (`text` plus its citations). -/
structure SentenceJ where
  text : List Char
  citations : List PBCitation
deriving DecidableEq, Repr

/-- A paragraph of the parsed argument structure. -/
inductive ParaJ
  | blockQuote (text : List Char) (intro : Option (List Char)) (citations : List PBCitation)
  | body (sentences : List SentenceJ)
deriving DecidableEq, Repr

/-- The parsed document (`parsed['argument']['paragraphs']`). -/
structure ParsedJ where
  paragraphs : List ParaJ
deriving DecidableEq, Repr

/-- `propagate_cl_records`: thread the propagation state through every
citation list of the document in order, returning the updated document. -/
def propagate_cl_records (parsed : ParsedJ) : ParsedJ :=
  let step := fun (st : PState) (para : ParaJ) =>
    match para with
    | .blockQuote t i cs =>
      let (cs', st') := process_citations st cs
      (ParaJ.blockQuote t i cs', st')
    | .body sents =>
      let r := sents.foldl
        (fun acc s =>
          let (cs', st') := process_citations acc.2 s.citations
          (acc.1 ++ [SentenceJ.mk s.text cs'], st'))
        ([], st)
      (ParaJ.body r.1, r.2)
  ⟨(parsed.paragraphs.foldl
      (fun acc para =>
        let (p', st') := step acc.2 para
        (acc.1 ++ [p'], st'))
      ([], {})).1⟩

/-- `_has_quotation` of `parse_brief.py`: a quoted run of 15 or more
characters (`["“][^"”]{15,}["”]`; the run class excludes `"`
and `”`, and a closing delimiter must follow the run). -/
def quoteSearch (openers closers : List Char) (minLen : Nat) : List Char → Bool
  | [] => false
  | c :: rest =>
    (openers.contains c &&
      (let run := rest.takeWhile (fun x => !closers.contains x)
       decide (minLen ≤ run.length) && decide (run.length < rest.length))) ||
    quoteSearch openers closers minLen rest

/-- `_has_quotation` (threshold 15). -/
def has_quotation (t : List Char) : Bool := quoteSearch ['"', '“'] ['"', '”'] 15 t

/-- Python `min(citations, key=...)`: first element with the minimal key. -/
def pyMinBy (f : PBCitation → Nat) : List PBCitation → Option PBCitation
  | [] => none
  | c :: rest => some (rest.foldl (fun best x => if f x < f best then x else best) c)

/-- Python `max(citations, key=...)`: first element with the maximal key. -/
def pyMaxBy (f : PBCitation → Nat) : List PBCitation → Option PBCitation
  | [] => none
  | c :: rest => some (rest.foldl (fun best x => if f best < f x then x else best) c)

/-- `_extract_proposition_from_sentence` of `parse_brief.py`: returns
`(proposition_text, proposition_type)` (`none` for Python `None`). -/
def extract_proposition_from_sentence (sentText : List Char)
    (citations : List PBCitation) (prevSentence : Option (List Char)) :
    Option (List Char) × String :=
  match pyMinBy (fun c => c.span.1) citations, pyMaxBy (fun c => c.span.2) citations with
  | some firstCite, some lastCite =>
    let citeStart := firstCite.span.1
    let citeEnd := lastCite.span.2
    let textBefore := pyStrip (sentText.take citeStart)
    let textAfter := pyStrip (sentText.drop citeEnd)
    if pyEndsWith textBefore ['-', '-'] && ['-', '-'].isPrefixOf textAfter then
      let intro := pyStrip (textBefore.take (textBefore.length - 2))
      let conclusion := pyStrip (textAfter.drop 2)
      let propText := pyStrip (intro ++ ' ' :: conclusion)
      (some propText, if has_quotation propText then "quote" else "statement")
    else
      let signal := firstCite.signal
      let textBefore1 :=
        match signal with
        | some sg =>
          if !sg.isEmpty && pyEndsWith (pyLower textBefore) (pyLower sg) then
            pyStrip (textBefore.take (textBefore.length - sg.length))
          else textBefore
        | none => textBefore
      let textBefore2 := pyRStripSet ['.', ',', ';', ':', '-', '–', ' '] textBefore1
      if 20 ≤ textBefore2.length then
        (some textBefore2, if has_quotation textBefore2 then "quote" else "statement")
      else if pyTruthy prevSentence then
        (prevSentence, if has_quotation (prevSentence.getD []) then "quote" else "statement")
      else if !textBefore2.isEmpty then (some textBefore2, "statement")
      else (none, "")
  | _, _ => (none, "")

/-- One proposition produced by `extract_propositions` of `parse_brief.py`
(the `intro` key exists only on block-quote propositions; absence = `none`). -/
structure PropJ where
  text : List Char
  type : String
  intro : Option (List Char) := none
  citations : List PBCitation
deriving DecidableEq, Repr

/-- Body-sentence step of `extract_propositions`: the propositions this
sentence contributes (parenthetical propositions first, in citation order,
then the main proposition), and the new `prev_sentence_text`. -/
def processSentence (prev : Option (List Char)) (sent : SentenceJ) :
    List PropJ × Option (List Char) :=
  if sent.citations.isEmpty then ([], some sent.text)
  else
    let pt := extract_proposition_from_sentence sent.text sent.citations prev
    let chunk :=
      if pyTruthy pt.1 then
        (sent.citations.filterMap fun c =>
          if pyTruthy c.signal && pyTruthy c.parenthetical then
            some { text := c.parenthetical.getD [], type := "parenthetical",
                   citations := [c] }
          else none)
        ++ [{ text := pt.1.getD [], type := pt.2, citations := sent.citations }]
      else []
    (chunk, some sent.text)

/-- Sentence fold step of `extract_propositions` (append the sentence's
chunk, carry `prev_sentence_text`). -/
def sentStep (acc : List PropJ × Option (List Char)) (s : SentenceJ) :
    List PropJ × Option (List Char) :=
  (acc.1 ++ (processSentence acc.2 s).1, (processSentence acc.2 s).2)

/-- Paragraph step of `extract_propositions`. -/
def processParaJ (prev : Option (List Char)) : ParaJ → List PropJ × Option (List Char)
  | .blockQuote t i cs =>
    (if !cs.isEmpty then
      [{ text := t, intro := i, type := "block_quote", citations := cs }]
     else [],
     some t)
  | .body sents => sents.foldl sentStep ([], prev)

/-- Paragraph fold step of `extract_propositions`. -/
def paraStep (acc : List PropJ × Option (List Char)) (para : ParaJ) :
    List PropJ × Option (List Char) :=
  (acc.1 ++ (processParaJ acc.2 para).1, (processParaJ acc.2 para).2)

/-- `extract_propositions` of `parse_brief.py`. -/
def extract_propositions (parsed : ParsedJ) : List PropJ :=
  (parsed.paragraphs.foldl paraStep ([], none)).1

/-- A raw positioned text block (`page.get_text("blocks")` tuple), reduced to
the fields `_calculate_margins` reads; coordinates are exact rationals. -/
structure RawBlock where
  x0 : ℚ
  y0 : ℚ
  text : List Char
  block_type : Nat := 0
deriving DecidableEq, Repr

/-- Python `round()` (banker's rounding: ties go to the even integer).  With
`f = ⌊q⌋`, the fractional part `q - f` compares to `1/2` exactly as
`2 * (q.num - f * q.den)` compares to `q.den` (the denominator is positive). -/
def pyRound (q : ℚ) : ℤ :=
  let f := q.floor
  let t := 2 * (q.num - f * Int.ofNat q.den)
  if t < Int.ofNat q.den then f
  else if Int.ofNat q.den < t then f + 1
  else if f % 2 = 0 then f else f + 1

/-- Rounded x0 of every counted block (`block_type == 0`, nonempty stripped
text of length greater than 30), in document order. -/
def qualifyingX0s (blocks : List RawBlock) : List ℤ :=
  (blocks.filter fun b =>
    b.block_type = 0 && !(pyStrip b.text).isEmpty && decide (30 < (pyStrip b.text).length)).map
    (fun b => pyRound b.x0)

/-- `collections.Counter` of a list, in first-seen key order. -/
def countsOrdered (vals : List ℤ) : List (ℤ × Nat) :=
  vals.foldl
    (fun acc v =>
      if acc.any (·.1 = v) then
        acc.map (fun p => if p.1 = v then (p.1, p.2 + 1) else p)
      else acc ++ [(v, 1)])
    []

/-- Stable insertion (descending by count) used by `mostCommon`. -/
def insDesc (x : ℤ × Nat) : List (ℤ × Nat) → List (ℤ × Nat)
  | [] => [x]
  | y :: ys => if x.2 ≤ y.2 then y :: insDesc x ys else x :: y :: ys

/-- `Counter.most_common(n)`: keys sorted by count descending, ties in
first-seen order (Python's sort is stable), truncated to `n`. -/
def mostCommon (n : Nat) (counts : List (ℤ × Nat)) : List (ℤ × Nat) :=
  (counts.foldl (fun acc x => insDesc x acc) []).take n

/-- `BriefParser._calculate_margins` over the section's raw blocks: returns
`(_body_margin, _block_indent)`; with no countable block neither attribute is
assigned (both stay `None` from `__init__`). -/
def calculate_margins (blocks : List RawBlock) : Option ℤ × Option ℤ :=
  let mc := mostCommon 3 (countsOrdered (qualifyingX0s blocks))
  if 2 ≤ mc.length then
    let a := (mc.getD 0 (0, 0)).1
    let b := (mc.getD 1 (0, 0)).1
    (some (min a b), some (max a b))
  else if mc.length = 1 then
    let v := (mc.getD 0 (0, 0)).1
    (some v, some (v + 36))
  else (none, none)

/-- A collected block of `extract_paragraphs`' first pass
(`{'text': ..., 'x0': ..., 'page': ...}`). -/
structure ABlock where
  text : List Char
  x0 : ℚ
  page : Nat
deriving DecidableEq, Repr

/-- `block['x0'] - self._body_margin if self._body_margin else 0` (Python
truthiness: both `None` and `0` give `0`). -/
def indentOf (bodyMargin : Option ℤ) (b : ABlock) : ℚ :=
  match bodyMargin with
  | some m => if m ≠ 0 then b.x0 - (m : ℚ) else 0
  | none => 0

/-- The look-ahead of the body loop in `extract_paragraphs`: scanning the
blocks after a candidate, an indent above 25 confirms a block quote before
any indent of at most 10 is seen. -/
def lookaheadBQ (bm : Option ℤ) : List ABlock → Bool
  | [] => false
  | b :: rest =>
    if 25 < indentOf bm b then true
    else if indentOf bm b ≤ 10 then false
    else lookaheadBQ bm rest

/-- Body-paragraph collection of `extract_paragraphs`: keep consuming blocks
until one starts a confirmed block quote; returns (collected, remaining). -/
def collectBody (bm : Option ℤ) : List ABlock → List ABlock × List ABlock
  | [] => ([], [])
  | nb :: rest =>
    if 25 < indentOf bm nb && lookaheadBQ bm rest then ([], nb :: rest)
    else (nb :: (collectBody bm rest).1, (collectBody bm rest).2)

/-- A paragraph produced by `extract_paragraphs` (`ptype` is the `'type'`
key: `"block_quote"` or `"body"`). -/
structure ParaOut where
  ptype : String
  blocks : List ABlock
deriving DecidableEq, Repr

/-- The second pass of `BriefParser.extract_paragraphs` (grouping the
collected blocks into body paragraphs and block quotes). -/
def extract_paragraphs (bm : Option ℤ) : List ABlock → List ParaOut
  | [] => []
  | b :: rest =>
    if 25 < indentOf bm b then
      let quoteRest := rest.takeWhile (fun x => decide (25 < indentOf bm x))
      if 2 ≤ (b :: quoteRest).length then
        ⟨"block_quote", b :: quoteRest⟩ :: extract_paragraphs bm (rest.drop quoteRest.length)
      else
        ⟨"body", b :: (collectBody bm rest).1⟩ :: extract_paragraphs bm (collectBody bm rest).2
    else
      ⟨"body", b :: (collectBody bm rest).1⟩ :: extract_paragraphs bm (collectBody bm rest).2
  termination_by l => l.length
  decreasing_by
    all_goals first
      | (simp only [List.length_cons, List.length_drop]; omega)
      | (have hlen : ∀ l : List ABlock, (collectBody bm l).2.length ≤ l.length := by
           intro l
           induction l with
           | nil => simp [collectBody]
           | cons nb r ih =>
             by_cases h : (decide (25 < indentOf bm nb) && lookaheadBQ bm r) = true
             · simp [collectBody, h]
             · simp only [collectBody, h, if_false, Bool.false_eq_true]
               simpa using Nat.le_succ_of_le ih
         have := hlen rest
         simp only [List.length_cons]
         omega)

end ParseBrief

namespace PDFExtractor
open CiteCheck ParseBrief

/-- `PDFExtractor._calculate_margins`: identical clustering to the
`parse_brief.py` variant, but the single-cluster fallback adds 20, not 36;
returns `(_body_margin, _para_indent)`. -/
def calculate_margins (blocks : List RawBlock) : Option ℤ × Option ℤ :=
  let mc := mostCommon 3 (countsOrdered (qualifyingX0s blocks))
  if 2 ≤ mc.length then
    let a := (mc.getD 0 (0, 0)).1
    let b := (mc.getD 1 (0, 0)).1
    (some (min a b), some (max a b))
  else if mc.length = 1 then
    let v := (mc.getD 0 (0, 0)).1
    (some v, some (v + 20))
  else (none, none)

end PDFExtractor

namespace ExtractPropositions
open CiteCheck

/-- An input proposition dictionary of `consolidate_propositions`
(`extract_propositions.py`); the attached citations are opaque values. -/
structure InProp (α : Type) where
  text : List Char
  proposition_type : String
  citations : List α
  signal : Option (List Char) := none
deriving DecidableEq, Repr

/-- An output entry of `consolidate_propositions`. -/
structure OutProp (α : Type) where
  proposition : List Char
  type : String
  citations : List α
  signal : Option (List Char)
deriving DecidableEq, Repr

/-- One iteration of the loop in `consolidate_propositions`: propositions
whose stripped text is empty or shorter than 10 characters are skipped;
otherwise the first 200 characters are the dictionary key, and an existing
entry absorbs the citations. -/
def consStep {α : Type} (acc : List (List Char × OutProp α)) (p : InProp α) :
    List (List Char × OutProp α) :=
  let text := pyStrip p.text
  if text.isEmpty || decide (text.length < 10) then acc
  else
    let key := text.take 200
    if acc.any (·.1 = key) then
      acc.map fun q =>
        if q.1 = key then (q.1, { q.2 with citations := q.2.citations ++ p.citations })
        else q
    else
      acc ++ [(key, { proposition := text, type := p.proposition_type,
                      citations := p.citations, signal := p.signal })]

/-- `consolidate_propositions` (`dict` in insertion order; the result is
`list(consolidated.values())`). -/
def consolidate_propositions {α : Type} (props : List (InProp α)) : List (OutProp α) :=
  (props.foldl consStep []).map (·.2)

end ExtractPropositions

namespace ParseBrief
open CiteCheck

/-- Property of a proposition list: every Statement/Quotation proposition is
accompanied, in the same list, by a separate parenthetical-kind proposition
for each of its citations that carries both a signal and a parenthetical. -/
def ParenAlongside (props : List PropJ) : Prop :=
  ∀ pr ∈ props, (pr.type = "statement" ∨ pr.type = "quote") →
    ∀ c ∈ pr.citations, pyTruthy c.signal = true → pyTruthy c.parenthetical = true →
      ∀ pc, c.parenthetical = some pc →
        ({ text := pc, type := "parenthetical", citations := [c] } : PropJ) ∈ props

end ParseBrief

namespace Fixtures
open CiteCheck CitationAnalyzer ParseBrief BriefProcessor ExtractPropositions

/-- Witness input for the `needs_review` invariant: a signalled citation with
no parenthetical. -/
def w1Text : List Char := "See Roe v. Doe, 1 U.S. 2 (1999).".data

/-- The recognizer token for `w1Text`. -/
def w1Tok : Tok :=
  { kind := .fullCase, spanStart := 4, spanEnd := 31,
    fullSpanStart := some 4, fullSpanEnd := some 31 }

/-- The item `extract_citations_with_context w1Text [w1Tok]` produces. -/
def w1Item : Item :=
  { preceding_text := []
    citation :=
      { text := "Roe v. Doe, 1 U.S. 2 (1999)".data, type := "full_case",
        start := 4, stop := 31, signal := some ("see".data),
        parenthetical := none, needs_review := true, refers_to := none }
    has_quotation := false
    quotations := []
    content_type := "statement"
    is_string_cite := true
    string_cite_group := 0 }

/-- String-cite scenario text: one proposition followed by three citations
separated by `"; "` and `"; and "`. -/
def c3Text : List Char :=
  "The rule is clear. Roe v. Doe, 1 U.S. 2 (1999); Moe v. Poe, 3 U.S. 4 (1999); and Loe v. Zoe, 5 U.S. 6 (1999).".data

/-- The three full-case tokens of `c3Text`. -/
def c3Toks : List Tok :=
  [{ kind := .fullCase, spanStart := 19, spanEnd := 46, fullSpanStart := some 19, fullSpanEnd := some 46 },
   { kind := .fullCase, spanStart := 48, spanEnd := 75, fullSpanStart := some 48, fullSpanEnd := some 75 },
   { kind := .fullCase, spanStart := 81, spanEnd := 108, fullSpanStart := some 81, fullSpanEnd := some 108 }]

/-- Parenthetical scenario: the explanatory parenthetical immediately follows
the citation span, which ends at position 27. -/
def c5TextA : List Char :=
  "Roe v. Doe, 1 U.S. 2 (1999) (holding that the statute applies).".data

/-- Counterexample text: the text after the span (position 23) starts with
`" some words"`, not an opening parenthesis, yet an explanatory parenthetical
occurs later in the 200-character window. -/
def c5TextB : List Char :=
  "A v. B, 1 U.S. 2 (1999) some words (holding that it applies).".data

/-- External record whose authoritative start page is 100. -/
def c2Record : CLRecord := ⟨["123 S.W.3d 100".data]⟩

/-- FullCase citation carrying `c2Record`. -/
def c2Full : PBCitation :=
  { cite_type := "full_case", volume := some ("123".data),
    reporter := some ("S.W.3d".data), page := some ("100".data),
    case_name := some ("Smith v. State".data), cl_record := some c2Record }

/-- `"Id. at 105"`: effective pin-cite page 105. -/
def c2Id105 : PBCitation := { cite_type := "id", pin_cite := some ("at 105".data) }

/-- `"Id. at 900"`: effective pin-cite page 900, outside the window. -/
def c2Id900 : PBCitation := { cite_type := "id", pin_cite := some ("at 900".data) }

/-- A detected block quote (fewer than ten words, so its identifier is its
whole text). -/
def c4Bq : BlockQuote := ⟨"alpha beta gamma delta".data, 3, 3⟩

/-- First citation item whose preceding text contains the quote identifier. -/
def c4ItemA : Item :=
  { preceding_text := "He said: alpha beta gamma delta".data
    citation :=
      { text := "Roe v. Doe, 1 U.S. 2 (1999)".data, type := "full_case",
        start := 40, stop := 67, signal := none, parenthetical := none,
        needs_review := false }
    has_quotation := false
    quotations := []
    content_type := "statement"
    is_string_cite := false
    string_cite_group := 1 }

/-- Second, distinct citation item whose preceding text also contains the
same quote identifier. -/
def c4ItemB : Item :=
  { preceding_text := "She replied: alpha beta gamma delta".data
    citation :=
      { text := "Moe v. Poe, 3 U.S. 4 (1999)".data, type := "full_case",
        start := 90, stop := 117, signal := none, parenthetical := none,
        needs_review := false }
    has_quotation := false
    quotations := []
    content_type := "statement"
    is_string_cite := false
    string_cite_group := 2 }

/-- Sentence-segmentation test string of the specification. -/
def c6Text : List Char :=
  "See Smith v. State, 123 S.W.3d 456 (Tex. 2020). The court erred.".data

/-- A single substantial text block at x0 = 72: exactly one margin cluster. -/
def c7Block : RawBlock :=
  { x0 := 72, y0 := 10, text := "This block persists beyond thirty chars".data }

/-- Some positioned blocks for the paragraph-grouping part of the margin
fallback claim (margins inferred from a single cluster). -/
def c7ABlocks : List ABlock :=
  [⟨"First body block".data, 72, 1⟩,
   ⟨"An indented quote line".data, 110, 1⟩,
   ⟨"Another indented quote line".data, 110, 1⟩,
   ⟨"Back to body".data, 72, 1⟩]

/-- Citation with both a signal and a parenthetical. -/
def c8Cite : PBCitation :=
  { cite_type := "full_case", span := (37, 64),
    signal := some ("see".data), parenthetical := some ("holding that X".data) }

/-- Sentence whose preceding text yields a Statement proposition. -/
def c8Sentence : SentenceJ :=
  ⟨"The rule is clearly established. See Roe v. Doe, 1 U.S. 2 (1999).".data, [c8Cite]⟩

/-- A parsed document for the positive (witness) scenario. -/
def c8Parsed : ParsedJ := ⟨[.body [c8Sentence]]⟩

/-- The Statement proposition `extract_propositions c8Parsed` derives. -/
def c8MainProp : PropJ :=
  { text := "The rule is clearly established".data, type := "statement",
    citations := [c8Cite] }

/-- Citation with signal and parenthetical whose sentence consists of the
citation alone (empty preceding text) with no previous sentence. -/
def c8EmptyCite : PBCitation :=
  { cite_type := "full_case", span := (0, 30),
    signal := some ("see".data), parenthetical := some ("holding that X".data) }

/-- A parsed document in which `c8EmptyCite`'s sentence is the very first
text of the argument. -/
def c8EmptyParsed : ParsedJ :=
  ⟨[.body [⟨"Roe v. Doe, 1 U.S. 2 (1999).".data, [c8EmptyCite]⟩]]⟩

/-- A proposition whose stripped text is shorter than 10 characters. -/
def c10Short : InProp Nat :=
  { text := "  short  ".data, proposition_type := "statement", citations := [7] }

/-- A long-enough proposition. -/
def c10Long1 : InProp Nat :=
  { text := "The first long enough proposition.".data,
    proposition_type := "statement", citations := [1] }

/-- Another long-enough proposition. -/
def c10Long2 : InProp Nat :=
  { text := "The second long enough proposition.".data,
    proposition_type := "statement", citations := [2] }

end Fixtures

section Helpers
open CiteCheck CitationAnalyzer

/-- Each item produced by `processCite` has
`needs_review = signal present and parenthetical absent`, by construction of
the result record. -/
theorem processCite_needs_review (text : List Char) (st : AState) (tok : Tok) :
    ((processCite text st tok).1).citation.needs_review =
      (((processCite text st tok).1).citation.signal.isSome &&
       ((processCite text st tok).1).citation.parenthetical.isNone) := rfl

/-- Fold invariant behind the `needs_review` theorem: every item the fold adds
to the accumulator satisfies the invariant. -/
theorem ecwc_foldl_invariant (text : List Char) :
    ∀ (toks : List Tok) (acc : List Item) (st : AState) (item : Item),
      item ∈ (toks.foldl (ecwcStep text) (acc, st)).1 →
      item ∈ acc ∨
        item.citation.needs_review =
          (item.citation.signal.isSome && item.citation.parenthetical.isNone) := by
  intro toks
  induction toks with
  | nil => intro acc st item h; exact Or.inl h
  | cons t ts ih =>
    intro acc st item h
    simp only [List.foldl_cons, ecwcStep] at h
    rcases ih _ _ item h with h' | h'
    · rcases List.mem_append.mp h' with h'' | h''
      · exact Or.inl h''
      · right
        rw [List.mem_singleton.mp h'']
        exact processCite_needs_review text st t
    · exact Or.inr h'

/-- A `parenthetical_pattern` match cannot start at or beyond the end of the
window. -/
theorem parenMatchAt_out_of_window (w : List Char) (i : Nat) (h : w.length ≤ i) :
    parenMatchAt w i = none := by
  unfold parenMatchAt
  rw [List.drop_eq_nil_of_le h]

/-- A take-while prefix followed by dropping its length restores the list. -/
theorem takeWhile_append_drop {α : Type} (p : α → Bool) :
    ∀ l : List α, l.takeWhile p ++ l.drop (l.takeWhile p).length = l := by
  intro l
  induction l with
  | nil => simp
  | cons a l ih =>
    by_cases h : p a = true
    · simp [List.takeWhile_cons, h, ih]
    · simp [List.takeWhile_cons, h]

/-- `collectBody` splits its input: collected blocks plus remainder give back
the original block list. -/
theorem collectBody_append (bm : Option ℤ) :
    ∀ l : List ParseBrief.ABlock,
      (ParseBrief.collectBody bm l).1 ++ (ParseBrief.collectBody bm l).2 = l := by
  intro l
  induction l with
  | nil => simp [ParseBrief.collectBody]
  | cons nb rest ih =>
    by_cases h : (decide (25 < ParseBrief.indentOf bm nb) && ParseBrief.lookaheadBQ bm rest) = true
    · simp [ParseBrief.collectBody, h]
    · simp [ParseBrief.collectBody, h, ih]

/-- The paragraph grouping of `extract_paragraphs` always completes and
partitions the blocks: concatenating the paragraphs' blocks restores the
input exactly. -/
theorem extract_paragraphs_covers (bm : Option ℤ) :
    ∀ l : List ParseBrief.ABlock,
      ((ParseBrief.extract_paragraphs bm l).map ParseBrief.ParaOut.blocks).flatten = l := by
  intro l
  induction l using ParseBrief.extract_paragraphs.induct bm with
  | case1 => simp [ParseBrief.extract_paragraphs]
  | case2 b rest h1 quoteRest h2 ih =>
    rw [ParseBrief.extract_paragraphs]
    simp only [if_pos h1, if_pos h2, List.map_cons, List.flatten_cons, ih]
    simp only [List.cons_append, List.cons.injEq, true_and]
    exact takeWhile_append_drop _ rest
  | case3 b rest h1 quoteRest h2 ih =>
    rw [ParseBrief.extract_paragraphs]
    simp only [if_pos h1, if_neg h2, List.map_cons, List.flatten_cons, ih]
    simp only [List.cons_append, List.cons.injEq, true_and]
    exact collectBody_append bm rest
  | case4 b rest h1 ih =>
    rw [ParseBrief.extract_paragraphs]
    simp only [if_neg h1, List.map_cons, List.flatten_cons, ih]
    simp only [List.cons_append, List.cons.injEq, true_and]
    exact collectBody_append bm rest

end Helpers

section HelpersC8
open CiteCheck ParseBrief

/-- The empty proposition list satisfies `ParenAlongside`. -/
theorem parenAlongside_nil : ParenAlongside [] := by
  intro pr hpr
  cases hpr

/-- `ParenAlongside` is closed under concatenation. -/
theorem parenAlongside_append {a b : List PropJ}
    (ha : ParenAlongside a) (hb : ParenAlongside b) : ParenAlongside (a ++ b) := by
  intro pr hpr htype c hc hs hp pc hpc
  rcases List.mem_append.mp hpr with h | h
  · exact List.mem_append.mpr (Or.inl (ha pr h htype c hc hs hp pc hpc))
  · exact List.mem_append.mpr (Or.inr (hb pr h htype c hc hs hp pc hpc))

/-- The per-sentence chunk of `extract_propositions` satisfies
`ParenAlongside`: the main Statement/Quotation proposition is always emitted
together with the parenthetical propositions of its qualifying citations. -/
theorem parenAlongside_processSentence (prev : Option (List Char)) (s : SentenceJ) :
    ParenAlongside (processSentence prev s).1 := by
  unfold processSentence
  by_cases hc : s.citations.isEmpty = true
  · simp only [hc, if_true]
    exact parenAlongside_nil
  · simp only [hc, if_false, Bool.false_eq_true]
    by_cases ht : pyTruthy (extract_proposition_from_sentence s.text s.citations prev).1 = true
    · simp only [ht, if_true]
      intro pr hpr htype c hcmem hsig hpar pc hpc
      rcases List.mem_append.mp hpr with hl | hr
      · rcases List.mem_filterMap.mp hl with ⟨c0, hc0, hfc0⟩
        by_cases hcond : (pyTruthy c0.signal && pyTruthy c0.parenthetical) = true
        · rw [if_pos hcond] at hfc0
          have := Option.some.inj hfc0
          subst this
          rcases htype with h | h <;> (dsimp only at h; exact absurd h (by decide))
        · rw [if_neg hcond] at hfc0
          cases hfc0
      · have hpr_eq := List.mem_singleton.mp hr
        subst hpr_eq
        apply List.mem_append.mpr
        left
        apply List.mem_filterMap.mpr
        refine ⟨c, hcmem, ?_⟩
        rw [if_pos (by rw [hsig, hpar]; rfl)]
        rw [hpc]
        rfl
    · simp only [ht, if_false, Bool.false_eq_true]
      exact parenAlongside_nil

/-- Folding sentence chunks preserves `ParenAlongside`. -/
theorem parenAlongside_sentFold :
    ∀ (sents : List SentenceJ) (acc : List PropJ × Option (List Char)),
      ParenAlongside acc.1 → ParenAlongside ((sents.foldl sentStep acc).1) := by
  intro sents
  induction sents with
  | nil => intro acc h; exact h
  | cons s ss ih =>
    intro acc h
    simp only [List.foldl_cons]
    exact ih _ (parenAlongside_append h (parenAlongside_processSentence acc.2 s))

/-- The per-paragraph chunk of `extract_propositions` satisfies
`ParenAlongside` (a block-quote proposition has kind `block_quote`, so the
condition is vacuous there). -/
theorem parenAlongside_processParaJ (prev : Option (List Char)) (para : ParaJ) :
    ParenAlongside (processParaJ prev para).1 := by
  cases para with
  | blockQuote t i cs =>
    unfold processParaJ
    by_cases hcs : (!cs.isEmpty) = true
    · simp only [hcs, if_true]
      intro pr hpr htype c hc hs hp pc hpc
      have := List.mem_singleton.mp hpr
      subst this
      rcases htype with h | h <;> (dsimp only at h; exact absurd h (by decide))
    · simp only [hcs, if_false, Bool.false_eq_true]
      exact parenAlongside_nil
  | body sents => exact parenAlongside_sentFold sents ([], prev) parenAlongside_nil

/-- Folding paragraph chunks preserves `ParenAlongside`. -/
theorem parenAlongside_paraFold :
    ∀ (paras : List ParaJ) (acc : List PropJ × Option (List Char)),
      ParenAlongside acc.1 → ParenAlongside ((paras.foldl paraStep acc).1) := by
  intro paras
  induction paras with
  | nil => intro acc h; exact h
  | cons p ps ih =>
    intro acc h
    simp only [List.foldl_cons]
    exact ih _ (parenAlongside_append h (parenAlongside_processParaJ acc.2 p))

end HelpersC8

section ClaimC1
open CiteCheck CitationAnalyzer

/-- C1.  For every citation emitted by `extract_citations_with_context`, the
output field `needs_review` is true exactly when a signal was detected for
the citation and no explanatory parenthetical was detected after it
(`needs_review = signal is not None and parenthetical is None`). -/
theorem needs_review_invariant (text : List Char) (toks : List Tok) (item : Item)
    (h : item ∈ extract_citations_with_context text toks) :
    item.citation.needs_review =
      (item.citation.signal.isSome && item.citation.parenthetical.isNone) := by
  rcases ecwc_foldl_invariant text toks [] {} item h with h' | h'
  · simp at h'
  · exact h'

/-- Witness for C1: a concrete signalled, parenthetical-less citation, with
the invariant instantiated on it. -/
theorem needs_review_invariant_witness :
    Fixtures.w1Item ∈ extract_citations_with_context Fixtures.w1Text [Fixtures.w1Tok] ∧
      Fixtures.w1Item.citation.needs_review =
        (Fixtures.w1Item.citation.signal.isSome &&
         Fixtures.w1Item.citation.parenthetical.isNone) :=
  ⟨by decide, needs_review_invariant Fixtures.w1Text [Fixtures.w1Tok] Fixtures.w1Item (by decide)⟩

end ClaimC1

section ClaimC2
open CiteCheck ParseBrief

/-- C2.  With a FullCase citation carrying an external record whose
authoritative start page is 100, a following `Id. at 105` inherits the case
name and the record (105 lies in `[100, 600]`), while a following
`Id. at 900` inherits neither (900 lies outside the 500-page window); in
general, a pin cite with a parseable page number validates exactly when that
page lies within `[start_page, start_page + 500]`. -/
theorem id_citation_pin_window_resolution :
    (get_start_page Fixtures.c2Record = some 100 ∧
      (((process_citations {} [Fixtures.c2Full, Fixtures.c2Id105, Fixtures.c2Id900]).1.getD 1 {}).cl_record
          = some Fixtures.c2Record ∧
        ((process_citations {} [Fixtures.c2Full, Fixtures.c2Id105, Fixtures.c2Id900]).1.getD 1 {}).case_name
          = some ("Smith v. State".data)) ∧
      (((process_citations {} [Fixtures.c2Full, Fixtures.c2Id105, Fixtures.c2Id900]).1.getD 2 {}).cl_record
          = none ∧
        ((process_citations {} [Fixtures.c2Full, Fixtures.c2Id105, Fixtures.c2Id900]).1.getD 2 {}).case_name
          = none)) ∧
    ∀ (pinCite : List Char) (startPage : Int) (p : Nat),
      firstDigitRun pinCite = some p →
      (is_valid_pin_cite pinCite startPage = true ↔
        (startPage ≤ (p : Int) ∧ (p : Int) ≤ startPage + 500)) := by
  refine ⟨⟨by decide, ⟨by decide, by decide⟩, ⟨by decide, by decide⟩⟩, ?_⟩
  intro pinCite startPage p h
  unfold is_valid_pin_cite
  by_cases he : pinCite.isEmpty = true
  · rw [List.isEmpty_iff] at he
    subst he
    cases h
  · rw [if_neg he, h]
    dsimp only
    constructor
    · intro hv
      by_cases h1 : (p : Int) < startPage
      · rw [if_pos h1] at hv; cases hv
      · rw [if_neg h1] at hv
        by_cases h2 : startPage + 500 < (p : Int)
        · rw [if_pos h2] at hv; cases hv
        · omega
    · intro hrange
      rw [if_neg (by omega), if_neg (by omega)]

/-- Witness for C2's window characterization, instantiated at the pin cite
`"at 105"` against start page 100. -/
theorem id_citation_pin_window_resolution_witness :
    firstDigitRun ("at 105".data) = some 105 ∧
      (is_valid_pin_cite ("at 105".data) 100 = true ↔
        ((100 : Int) ≤ (105 : Nat) ∧ ((105 : Nat) : Int) ≤ 100 + 500)) :=
  ⟨by decide, id_citation_pin_window_resolution.2 ("at 105".data) 100 105 (by decide)⟩

end ClaimC2

section ClaimC3
open CiteCheck CitationAnalyzer

/-- C3.  For three consecutive citations whose preceding raw texts are
`"The rule is clear."`, `";"` and `"; and"`, all three receive proposition
text `"The rule is clear."` and the same `string_cite_group`; the counter is
not incremented for the second and third citation. -/
theorem string_cite_grouping_example :
    (extract_citations_with_context Fixtures.c3Text Fixtures.c3Toks).map (·.preceding_text) =
        ["The rule is clear.".data, "The rule is clear.".data, "The rule is clear.".data] ∧
      (extract_citations_with_context Fixtures.c3Text Fixtures.c3Toks).map (·.is_string_cite) =
        [false, true, true] ∧
      (extract_citations_with_context Fixtures.c3Text Fixtures.c3Toks).map (·.string_cite_group) =
        [1, 1, 1] :=
  ⟨by decide, by decide, by decide⟩

end ClaimC3

section ClaimC6
open CiteCheck ParseBrief

/-- C6.  The sentence segmenter splits the test string into exactly the two
expected sentences; the periods inside `S.W.3d` and `Tex.` produce no
boundary (each full abbreviation survives inside the first sentence). -/
theorem sentence_segmentation_example :
    segment_sentences Fixtures.c6Text =
      ["See Smith v. State, 123 S.W.3d 456 (Tex. 2020).".data,
       "The court erred.".data] := by
  decide

end ClaimC6

section ClaimC9
open BriefProcessor

/-- C9.  When neither section lookup (`"Argument"`/`"ARGUMENT"`) finds the
required heading, the per-document run fails with the distinct
`sectionNotFound` error kind and produces no output (the error carries no
items and no propositions). -/
theorem section_not_found_error
    (cleanText : List Char → List Char)
    (getCitations : List Char → List CitationAnalyzer.Tok) :
    process_brief cleanText getCitations none none = .error .sectionNotFound := rfl

end ClaimC9

section ClaimC10
open CiteCheck ExtractPropositions

/-- C10.  A proposition whose stripped text is empty or shorter than 10
characters contributes nothing to consolidation: the consolidated output is
the same as if the proposition (with its citations) were absent. -/
theorem consolidation_skips_short_propositions {α : Type}
    (l1 l2 : List (InProp α)) (p : InProp α)
    (h : (pyStrip p.text).length < 10) :
    consolidate_propositions (l1 ++ p :: l2) = consolidate_propositions (l1 ++ l2) := by
  have hstep : ∀ acc : List (List Char × OutProp α), consStep acc p = acc := by
    intro acc
    unfold consStep
    rw [if_pos]
    simp [h]
  unfold consolidate_propositions
  rw [List.foldl_append, List.foldl_cons, hstep, ← List.foldl_append]

/-- Witness for C10: a concrete short proposition dropped between two long
ones. -/
theorem consolidation_skips_short_propositions_witness :
    (pyStrip Fixtures.c10Short.text).length < 10 ∧
      consolidate_propositions ([Fixtures.c10Long1] ++ Fixtures.c10Short :: [Fixtures.c10Long2]) =
        consolidate_propositions ([Fixtures.c10Long1] ++ [Fixtures.c10Long2]) :=
  ⟨by decide,
   consolidation_skips_short_propositions [Fixtures.c10Long1] [Fixtures.c10Long2]
     Fixtures.c10Short (by decide)⟩

end ClaimC10

section ClaimC4
open CiteCheck CitationAnalyzer BriefProcessor

/-- C4, counterexample.  The linker never marks a block quote as used: two
distinct citations whose preceding texts both contain the quote's
ten-word identifier are BOTH linked to the same single block quote,
refuting "each BlockQuote is linked to at most one citation". -/
theorem block_quote_multiple_link_counterexample :
    (link_block_quotes_to_citations [Fixtures.c4ItemA, Fixtures.c4ItemB] [Fixtures.c4Bq]).map
        (fun it => it.block_quote.map (·.text)) =
      [some Fixtures.c4Bq.text, some Fixtures.c4Bq.text] := by
  decide

/-- C4, amended.  For every citation the block-quote linker links (starting
from unlinked items, as the analyzer produces them), the citation's content
kind is exactly `block_quotation` and its inline quotations are cleared; each
citation links to at most one BlockQuote (the first matching one in list
order), but a BlockQuote may be linked by several citations. -/
theorem block_quote_link_invariant_amended (items : List Item) (bqs : List BlockQuote)
    (h0 : ∀ it ∈ items, it.block_quote = none) :
    ∀ it' ∈ link_block_quotes_to_citations items bqs,
      it'.block_quote.isSome = true →
      it'.content_type = "block_quotation" ∧ it'.quotations = [] ∧
        it'.has_quotation = false := by
  intro it' hmem hsome
  unfold link_block_quotes_to_citations at hmem
  rcases List.mem_map.mp hmem with ⟨it, hit, heq⟩
  subst heq
  cases hfs : bqs.findSome? (linkOne (joinSpace (pySplit it.preceding_text))) with
  | none =>
    simp only [link_item, hfs] at hsome
    rw [h0 it hit] at hsome
    cases hsome
  | some lb =>
    simp only [link_item, hfs]
    exact ⟨trivial, trivial, trivial⟩

/-- Witness for C4's amended invariant, instantiated on a concrete linked
citation. -/
theorem block_quote_link_invariant_witness :
    ((link_block_quotes_to_citations [Fixtures.c4ItemA] [Fixtures.c4Bq]).headD
        Fixtures.c4ItemA).content_type = "block_quotation" ∧
    ((link_block_quotes_to_citations [Fixtures.c4ItemA] [Fixtures.c4Bq]).headD
        Fixtures.c4ItemA).quotations = [] ∧
    ((link_block_quotes_to_citations [Fixtures.c4ItemA] [Fixtures.c4Bq]).headD
        Fixtures.c4ItemA).has_quotation = false :=
  block_quote_link_invariant_amended [Fixtures.c4ItemA] [Fixtures.c4Bq] (by decide) _
    (by decide) (by decide)

end ClaimC4

section ClaimC5
open CiteCheck CitationAnalyzer

/-- C5, counterexample.  At a concrete input where the text after the span
does not begin (after optional whitespace) with `(`, the detector still
reports a parenthetical, because it searches the whole 200-character window;
this refutes "when the text after the span does not begin ... with one of the
fixed explanatory verbs, no parenthetical is reported". -/
theorem parenthetical_adjacency_counterexample :
    (pyLStrip (Fixtures.c5TextB.drop 23)).headD ' ' ≠ '(' ∧
    (find_parenthetical_after Fixtures.c5TextB 23).isSome = true :=
  ⟨by decide, by decide⟩

/-- C5, amended.  `"(holding that the statute applies)"` immediately after
the span yields parenthetical content exactly `"the statute applies"`; and no
parenthetical is reported exactly when the verb pattern
`\((verb)\s+that\s+([^)]+)\)` matches nowhere in the 200-character window
after the span (adjacency to the span is not required). -/
theorem parenthetical_extraction_amended :
    (find_parenthetical_after Fixtures.c5TextA 27).map ParenInfo.content =
        some ("the statute applies".data) ∧
    ∀ (text : List Char) (pos : Nat),
      (find_parenthetical_after text pos = none ↔
        ∀ i : Nat, parenMatchAt (pySlice text pos (min text.length (pos + 200))) i = none) := by
  refine ⟨by decide, ?_⟩
  intro text pos
  unfold find_parenthetical_after
  cases hfs : (List.range (pySlice text pos (min text.length (pos + 200))).length).findSome?
      (fun i => (parenMatchAt (pySlice text pos (min text.length (pos + 200))) i).map (fun m => (i, m))) with
  | none =>
    simp only [hfs]
    constructor
    · intro _ i
      by_cases hi : i < (pySlice text pos (min text.length (pos + 200))).length
      · have hx := (List.findSome?_eq_none_iff).mp hfs i (List.mem_range.mpr hi)
        exact Option.map_eq_none'.mp hx
      · exact parenMatchAt_out_of_window _ _ (Nat.le_of_not_lt hi)
    · intro _; trivial
  | some v =>
    obtain ⟨j, m⟩ := v
    simp only [hfs]
    apply iff_of_false
    · exact Option.some_ne_none _
    · intro hall
      rcases List.exists_of_findSome?_eq_some hfs with ⟨a, ha, hfa⟩
      rw [hall a] at hfa
      cases hfa

end ClaimC5

section ClaimC7
open CiteCheck ParseBrief

/-- C7, counterexample.  On a section with exactly one margin cluster (a
single substantial block at x0 = 72), the backend extractor's fallback indent
is the margin plus 20, not plus 36 as the claim states for both cited
implementations. -/
theorem margin_fallback_offset_counterexample :
    PDFExtractor.calculate_margins [Fixtures.c7Block] = (some 72, some 92) ∧
      (92 : ℤ) ≠ 72 + 36 :=
  ⟨by decide, by decide⟩

/-- C7, amended.  Whenever margin clustering finds exactly one cluster,
`parse_brief.py` falls back to the single inferred margin plus a fixed 36pt
offset, while the backend `pdf_extractor.py` uses a 20pt offset; and the
paragraph segmentation always completes without error, partitioning every
block into exactly one paragraph. -/
theorem margin_fallback_amended :
    (∀ (blocks : List RawBlock) (m : ℤ) (c : Nat),
        countsOrdered (qualifyingX0s blocks) = [(m, c)] →
        ParseBrief.calculate_margins blocks = (some m, some (m + 36)) ∧
        PDFExtractor.calculate_margins blocks = (some m, some (m + 20))) ∧
    (∀ (bm : Option ℤ) (l : List ABlock),
        ((extract_paragraphs bm l).map ParaOut.blocks).flatten = l) := by
  constructor
  · intro blocks m c h
    constructor
    · unfold ParseBrief.calculate_margins
      rw [h]
      rfl
    · unfold PDFExtractor.calculate_margins
      rw [h]
      rfl
  · exact extract_paragraphs_covers

/-- Witness for C7's amended claim on a concrete single-cluster section and a
concrete block sequence. -/
theorem margin_fallback_amended_witness :
    countsOrdered (qualifyingX0s [Fixtures.c7Block]) = [(72, 1)] ∧
    ParseBrief.calculate_margins [Fixtures.c7Block] = (some 72, some (72 + 36)) ∧
    PDFExtractor.calculate_margins [Fixtures.c7Block] = (some 72, some (72 + 20)) ∧
    ((extract_paragraphs (some 72) Fixtures.c7ABlocks).map ParaOut.blocks).flatten =
      Fixtures.c7ABlocks :=
  ⟨by decide, (margin_fallback_amended.1 [Fixtures.c7Block] 72 1 (by decide)).1,
   (margin_fallback_amended.1 [Fixtures.c7Block] 72 1 (by decide)).2,
   margin_fallback_amended.2 (some 72) Fixtures.c7ABlocks⟩

end ClaimC7

section ClaimC8
open CiteCheck ParseBrief

/-- C8, counterexample.  A citation that has both a signal and a
parenthetical, but whose sentence has empty preceding text and no previous
sentence, produces no propositions at all — in particular its parenthetical
content is NOT emitted as a Parenthetical-kind proposition, refuting the
claim as stated. -/
theorem parenthetical_proposition_missing_counterexample :
    pyTruthy Fixtures.c8EmptyCite.signal = true ∧
    pyTruthy Fixtures.c8EmptyCite.parenthetical = true ∧
    extract_propositions Fixtures.c8EmptyParsed = [] :=
  ⟨by decide, by decide, by decide⟩

/-- C8, amended.  In `parse_brief.py`'s attributor, whenever a
Statement/Quotation proposition is emitted, each of its citations that
carries both a signal and a parenthetical also has its parenthetical content
emitted as an additional, separate parenthetical-kind proposition alongside
it; when no proposition text is derived for a sentence, neither is emitted. -/
theorem parenthetical_proposition_alongside_amended (parsed : ParsedJ) :
    ParenAlongside (extract_propositions parsed) :=
  parenAlongside_paraFold parsed.paragraphs ([], none) parenAlongside_nil

/-- Witness for C8's amended claim: a concrete signal-plus-parenthetical
citation whose Statement proposition is emitted, with the separate
parenthetical proposition alongside it. -/
theorem parenthetical_proposition_alongside_witness :
    ({ text := "holding that X".data, type := "parenthetical",
       citations := [Fixtures.c8Cite] } : PropJ) ∈ extract_propositions Fixtures.c8Parsed :=
  parenthetical_proposition_alongside_amended Fixtures.c8Parsed Fixtures.c8MainProp
    (by decide) (Or.inl rfl) Fixtures.c8Cite (by decide) (by decide) (by decide)
    ("holding that X".data) rfl

end ClaimC8
